import Mathlib

set_option maxHeartbeats 1000000

namespace Rusqlite

/-- Errors raised by the siquery virtual-table module. The Rust code raises
every failure as `Error::ModuleError(msg)`; the spec's error taxonomy
(ParameterError, SchemaError, IndexError, ParseError) refers to the
messages carried here. -/
inductive Err where
  | ModuleError (msg : String)
deriving DecidableEq, Repr

/-- Modelled from the spec: `dequote` comes from the vtab helper module of
this repository, which is not among the given sources. The spec says values
are optionally quoted and `parameter` returns the unquoted value: a value
surrounded by a matching pair of single or double quotes loses them. -/
def dequote (s : String) : String :=
  if s.length < 2 then s
  else
    match s.toList.head?, s.toList.getLast? with
    | some b, some e =>
      if (b = '"' ∨ b = Char.ofNat 39) ∧ e = b then
        String.mk (List.dropLast (s.toList.drop 1))
      else s
    | _, _ => s

/-- Modelled from the spec: `parse_boolean` comes from the vtab helper module
of this repository, which is not among the given sources. The spec says
`header` accepts boolean-like tokens (yes/no and equivalents). -/
def parse_boolean (s : String) : Option Bool :=
  if s = "yes" ∨ s = "YES" ∨ s = "true" ∨ s = "TRUE" ∨ s = "on" ∨ s = "ON" ∨ s = "1" then
    some true
  else if s = "no" ∨ s = "NO" ∨ s = "false" ∨ s = "FALSE" ∨ s = "off" ∨ s = "OFF" ∨ s = "0" then
    some false
  else none

/-- Modelled from the spec: `escape_double_quote` comes from the vtab helper
module of this repository, which is not among the given sources. The spec
says header names pass through double-quote escaping: any `"` is doubled. -/
def escape_double_quote (s : String) : String :=
  String.mk (s.toList.flatMap fun c => if c = '"' then ['"', '"'] else [c])

/-- Decimal parse of a `u16`, as Rust `str::parse::<u16>` behaves: an
optional leading plus sign, then at least one ASCII digit, value below
65536. -/
def parseU16 (s : String) : Option Nat :=
  let cs := s.toList
  let cs := match cs with
    | '+' :: rest => rest
    | _ => cs
  if cs ≠ [] ∧ cs.all Char.isDigit then
    let n := cs.foldl (fun a c => a * 10 + (c.toNat - 48)) 0
    if n < 65536 then some n else none
  else none

/-- Model of Rust `str::trim`: drop leading and trailing whitespace. -/
def rustTrim (s : String) : String :=
  String.mk (((s.toList.dropWhile Char.isWhitespace).reverse.dropWhile
    Char.isWhitespace).reverse)

/-- One step of Rust `str::split(sep)`: the segment before the first
separator, and, when a separator occurs, the remainder after it. -/
def splitNext (sep : Char) : List Char → List Char × Option (List Char)
  | [] => ([], none)
  | c :: cs =>
    if c = sep then ([], some cs)
    else
      let r := splitNext sep cs
      (c :: r.1, r.2)

/-- Translation of `SIQUERYModule::parameter`: trim the argument, split it on
`=`; the key is the trimmed segment before the first `=`, the value is the
dequoted segment between the first and the second `=` (to the end when there
is only one); an argument without `=` is an error. -/
def SIQUERYModule.parameter (c_slice : String) : Except Err (String × String) :=
  let arg := rustTrim c_slice
  match splitNext '=' arg.toList with
  | (key, some rest) =>
    let value := (splitNext '=' rest).1
    .ok (rustTrim (String.mk key), dequote (String.mk value))
  | (_, none) => .error (.ModuleError ("illegal argument: '" ++ arg ++ "'"))

/-- Translation of `SIQUERYModule::parse_byte`: the single byte of a
one-byte string, `none` otherwise. -/
def SIQUERYModule.parse_byte (arg : String) : Option Nat :=
  if arg.utf8ByteSize = 1 then arg.toList.head?.map Char.toNat else none

/-- The `replace("\\n", "\n")` normalization performed by
`SIQUERYTab::reader`: each literal backslash-n pair becomes a newline,
scanning left to right without overlap. -/
def normalizeNewlines : List Char → List Char
  | [] => []
  | [c] => [c]
  | c1 :: c2 :: rest =>
    if c1 = '\\' ∧ c2 = 'n' then '\n' :: normalizeNewlines rest
    else c1 :: normalizeNewlines (c2 :: rest)

/-- Model of the external record parser (the `csv` crate) per the spec's
collaborator contract: fields split on the delimiter byte, records end at a
newline, blank lines yield no record, and quoting is interpreted only when
the quote byte is nonzero and a field starts with it (a doubled quote inside
a quoted field is a literal quote, and a closing quote returns to unquoted
scanning). `inQ` is true inside a quoted field; `started` is true once the
current record has consumed any input; `f` is the field, `r` the record and
`acc` the records finished so far. -/
def csvScan (delim quote : Nat) :
    List Char → Bool → Bool → String → List String → List (List String) →
    List (List String)
  | [], true, _, f, r, acc => acc ++ [r ++ [f]]
  | [], false, started, f, r, acc =>
    if started then acc ++ [r ++ [f]] else acc
  | c :: cs, true, st, f, r, acc =>
    if c.toNat = quote then
      match cs with
      | c2 :: cs2 =>
        if c2.toNat = quote then csvScan delim quote cs2 true st (f.push c2) r acc
        else csvScan delim quote (c2 :: cs2) false st f r acc
      | [] => csvScan delim quote [] false st f r acc
    else csvScan delim quote cs true st (f.push c) r acc
  | c :: cs, false, st, f, r, acc =>
    if c = '\n' then
      if st then csvScan delim quote cs false false "" [] (acc ++ [r ++ [f]])
      else csvScan delim quote cs false false "" [] acc
    else if c.toNat = delim then csvScan delim quote cs false true "" (r ++ [f]) acc
    else if quote ≠ 0 ∧ c.toNat = quote ∧ f = "" then
      csvScan delim quote cs true true f r acc
    else csvScan delim quote cs false true (f.push c) r acc

/-- All records of a byte buffer, per the record-parser contract. -/
def parseCSV (delim quote : Nat) (cs : List Char) : List (List String) :=
  csvScan delim quote cs false false "" [] []

/-- An instance of the CSV virtual table (`SIQUERYTab`). `delimiter` and
`quote` are byte values and `quote = 0` disables quoting; `offset_first_row`
is the captured parser position of the first data record, measured in
records of the source. -/
structure SIQUERYTab where
  table : String
  has_headers : Bool
  delimiter : Nat
  quote : Nat
  offset_first_row : Nat
deriving DecidableEq, Repr

/-- The record sequence produced by `SIQUERYTab::reader`: the table text
with literal backslash-n sequences normalized to newlines, tokenized by the
record parser with the configured delimiter and quote. -/
def SIQUERYTab.readerRecords (t : SIQUERYTab) : List (List String) :=
  parseCSV t.delimiter t.quote (normalizeNewlines t.table.toList)

/-- The initial table value built at the top of `SIQUERYModule::connect`:
empty table text, no headers, comma delimiter, double-quote quote, position
at the start. -/
def SIQUERYTab.default : SIQUERYTab :=
  { table := "", has_headers := false, delimiter := ','.toNat, quote := '"'.toNat,
    offset_first_row := 0 }

/-- State threaded through the argument loop of `connect`: the table under
construction, the explicit schema, and the explicit column count. -/
abbrev ConnectState := SIQUERYTab × Option String × Option Nat

/-- Translation of the body of the argument loop in `SIQUERYModule::connect`:
parse one `key=value` argument and apply it to the accumulated state. An
empty `table` value only prints a diagnostic and leaves the state unchanged. -/
def SIQUERYModule.applyArg (st : ConnectState) (c_slice : String) :
    Except Err ConnectState :=
  match SIQUERYModule.parameter c_slice with
  | .error e => .error e
  | .ok (param, value) =>
  match param with
  | "table" =>
    if value.isEmpty then
      .ok (st.1, st.2.1, st.2.2)
    else
      .ok ({ st.1 with table := value }, st.2.1, st.2.2)
  | "schema" => .ok (st.1, some value, st.2.2)
  | "columns" =>
    match parseU16 value with
    | some n =>
      if st.2.2.isSome then
        .error (.ModuleError "more than one 'columns' parameter")
      else if n = 0 then
        .error (.ModuleError "must have at least one column")
      else
        .ok (st.1, st.2.1, some n)
    | none =>
      .error (.ModuleError ("unrecognized argument to 'columns': " ++ value))
  | "header" =>
    match parse_boolean value with
    | some b => .ok ({ st.1 with has_headers := b }, st.2.1, st.2.2)
    | none => .error (.ModuleError ("unrecognized argument to 'header': " ++ value))
  | "delimiter" =>
    match SIQUERYModule.parse_byte value with
    | some b => .ok ({ st.1 with delimiter := b }, st.2.1, st.2.2)
    | none => .error (.ModuleError ("unrecognized argument to 'delimiter': " ++ value))
  | "quote" =>
    match SIQUERYModule.parse_byte value with
    | some b =>
      if b = '0'.toNat then .ok ({ st.1 with quote := 0 }, st.2.1, st.2.2)
      else .ok ({ st.1 with quote := b }, st.2.1, st.2.2)
    | none => .error (.ModuleError ("unrecognized argument to 'quote': " ++ value))
  | _ => .error (.ModuleError ("unrecognized parameter '" ++ param ++ "'"))

/-- Translation of the column-name determination of `SIQUERYModule::connect`
(the branch over `has_headers`, `columns` and `schema`): the derived names,
and the table with `offset_first_row` updated to the position after the
header record when a header is read. -/
def SIQUERYModule.determineCols (vtab : SIQUERYTab) (schema : Option String)
    (n_col : Option Nat) : List String × SIQUERYTab :=
  if vtab.has_headers ∨ (n_col.isNone ∧ schema.isNone) then
    let recs := vtab.readerRecords
    if vtab.has_headers then
      let headers := recs.headD []
      let cols :=
        if n_col.isNone ∧ schema.isNone then headers.map escape_double_quote
        else []
      (cols, { vtab with offset_first_row := min 1 recs.length })
    else
      match recs.head? with
      | some record => ((List.range record.length).map fun i => "c" ++ toString i, vtab)
      | none => ([], vtab)
  else
    match n_col with
    | some n => ((List.range n).map fun i => "c" ++ toString i, vtab)
    | none => ([], vtab)

/-- Translation of the schema-synthesis loop of `connect`, per column: each
name double-quoted and suffixed with a TEXT affinity, followed by a comma
separator, except the last column, which is followed by the terminator. -/
def schemaCols : List String → String
  | [] => ""
  | [col] => "\"" ++ col ++ "\" TEXT);"
  | col :: rest => "\"" ++ col ++ "\" TEXT, " ++ schemaCols rest

/-- The synthesized schema string of `connect`. -/
def mkSchemaSql (cols : List String) : String :=
  "CREATE TABLE x(" ++ schemaCols cols

/-- Translation of `SIQUERYModule::connect` after the argument loop: the
empty-table check, column determination, the no-column check and schema
synthesis. -/
def SIQUERYModule.connectParsed (vtab : SIQUERYTab) (schema : Option String)
    (n_col : Option Nat) : Except Err (String × SIQUERYTab) :=
  if vtab.table.isEmpty then .error (.ModuleError "no table name specified")
  else if (SIQUERYModule.determineCols vtab schema n_col).1.isEmpty ∧ schema.isNone then
    .error (.ModuleError "no column specified")
  else
    match schema with
    | some s => .ok (s, (SIQUERYModule.determineCols vtab schema n_col).2)
    | none =>
      .ok (mkSchemaSql (SIQUERYModule.determineCols vtab schema n_col).1,
        (SIQUERYModule.determineCols vtab schema n_col).2)

/-- Translation of `SIQUERYModule::connect`: fewer than four raw arguments
fail immediately; otherwise the three host-reserved slots are skipped, the
remaining arguments are folded through `applyArg`, and the parsed state is
finished by `connectParsed`. -/
def SIQUERYModule.connect (args : List String) : Except Err (String × SIQUERYTab) :=
  if args.length < 4 then .error (.ModuleError "no table name specified")
  else do
    let st ← (args.drop 3).foldlM SIQUERYModule.applyArg
      (SIQUERYTab.default, none, none)
    SIQUERYModule.connectParsed st.1 st.2.1 st.2.2

/-- Model of the parser handle owned by a cursor, per the spec's collaborator
contract: the record list of the source, the index of the next record, and
the exhaustion flag, which a read sets when it runs past the last record and
which `seek` clears. -/
structure Reader where
  records : List (List String)
  pos : Nat
  done : Bool
deriving DecidableEq, Repr

/-- Model of `csv::Reader::seek`: reposition and clear the exhaustion flag. -/
def Reader.seek (r : Reader) (p : Nat) : Reader :=
  { r with pos := p, done := false }

/-- Model of `csv::Reader::read_record`: the record at the current position,
advancing past it, or `none` with the exhaustion flag set at end of input
(the record passed to the Rust call is cleared in that case). -/
def Reader.readRecord (r : Reader) : Option (List String) × Reader :=
  match r.records[r.pos]? with
  | some rec => (some rec, { r with pos := r.pos + 1 })
  | none => (none, { r with done := true })

/-- A cursor for the CSV virtual table (`SIQUERYTabCursor`): the reader, the
row counter used as rowid, the fields of the current row, and the eof flag. -/
structure SIQUERYTabCursor where
  reader : Reader
  row_number : Nat
  cols : List String
  eof : Bool
deriving DecidableEq, Repr

/-- Translation of `SIQUERYTab::open` via `SIQUERYTabCursor::new`: a fresh
cursor over a fresh reader; with headers configured the reader skips the
header record. -/
def SIQUERYTab.open (t : SIQUERYTab) : SIQUERYTabCursor :=
  { reader := { records := t.readerRecords,
                pos := if t.has_headers then 1 else 0,
                done := false },
    row_number := 0, cols := [], eof := false }

/-- Translation of `SIQUERYTabCursor::next`: a no-op setting `eof` when the
reader is already exhausted; otherwise one read, which either stores the
record and increments the row counter, or sets `eof` at end of input (still
incrementing the row counter, as the increment follows the read block). -/
def SIQUERYTabCursor.next (c : SIQUERYTabCursor) : SIQUERYTabCursor :=
  if c.reader.done then { c with eof := true }
  else
    match c.reader.readRecord with
    | (some rec, rdr) =>
      { c with reader := rdr, cols := rec, eof := false,
               row_number := c.row_number + 1 }
    | (none, rdr) =>
      { c with reader := rdr, cols := [], eof := true,
               row_number := c.row_number + 1 }

/-- Translation of `SIQUERYTabCursor::filter`: seek the reader to the
table's first data position, reset the row counter, read one record. -/
def SIQUERYTabCursor.filter (t : SIQUERYTab) (c : SIQUERYTabCursor) :
    SIQUERYTabCursor :=
  SIQUERYTabCursor.next
    { c with reader := c.reader.seek t.offset_first_row, row_number := 0 }

/-- Translation of `SIQUERYTabCursor::rowid`: the row counter as a 64-bit
integer. -/
def SIQUERYTabCursor.rowid (c : SIQUERYTabCursor) : Int :=
  Int.ofNat c.row_number

/-- Result values produced by `column` through the host context: a null
value or a text value. -/
inductive ColValue where
  | null
  | text (s : String)
deriving DecidableEq, Repr

/-- Translation of `SIQUERYTabCursor::column`: the bounds check first, then
the null branch for an empty record, then the field text. -/
def SIQUERYTabCursor.column (c : SIQUERYTabCursor) (col : Int) :
    Except Err ColValue :=
  if col < 0 ∨ c.cols.length ≤ col.toNat then
    .error (.ModuleError ("column index out of bounds: " ++ toString col))
  else if c.cols.isEmpty then .ok .null
  else .ok (.text (c.cols.getD col.toNat ""))

/-- A table over the single-record source `x`, used as a concrete example. -/
def exTab : SIQUERYTab :=
  { table := "x", has_headers := false, delimiter := 44, quote := 34,
    offset_first_row := 0 }

/-- A table over the single-record source `a,b`, used as a concrete example. -/
def exTab2 : SIQUERYTab :=
  { table := "a,b", has_headers := false, delimiter := 44, quote := 34,
    offset_first_row := 0 }

/-- A table with quoting disabled over a source containing the quote byte,
used as a concrete example. -/
def exTabQ : SIQUERYTab :=
  { table := "a\"b", has_headers := false, delimiter := 44, quote := 0,
    offset_first_row := 0 }

deriving instance DecidableEq for Except

/-- Appending strings is associative. -/
theorem strAppendAssoc (a b c : String) : a ++ b ++ c = a ++ (b ++ c) :=
  String.ext (by simp [List.append_assoc])

/-- The accumulator of `String.intercalate.go` factors out on the left. -/
theorem intercalateGoAppend (s p : String) :
    ∀ (l : List String) (q : String),
      String.intercalate.go (p ++ q) s l = p ++ String.intercalate.go q s l
  | [], _ => rfl
  | a :: as, q => by
    show String.intercalate.go (p ++ q ++ s ++ a) s as =
      p ++ String.intercalate.go (q ++ s ++ a) s as
    rw [strAppendAssoc, strAppendAssoc, ← strAppendAssoc q s a,
      intercalateGoAppend s p as (q ++ s ++ a)]

/-- Unfolding of `String.intercalate` on a list of two or more elements. -/
theorem intercalateConsCons (s a b : String) (l : List String) :
    String.intercalate s (a :: b :: l) = a ++ s ++ String.intercalate s (b :: l) := by
  show String.intercalate.go (a ++ s ++ b) s l = a ++ s ++ String.intercalate.go b s l
  rw [strAppendAssoc a s b, intercalateGoAppend s a l (s ++ b),
    intercalateGoAppend s s l b, ← strAppendAssoc]

/-- The schema-column loop produces the comma-separated double-quoted
column list with the closing terminator. -/
theorem schemaColsEq : ∀ (cols : List String), cols ≠ [] →
    schemaCols cols =
      String.intercalate ", " (cols.map fun c => "\"" ++ c ++ "\" TEXT") ++ ");"
  | [], h => absurd rfl h
  | [a], _ => by
    show ("\"" ++ a ++ "\" TEXT);" : String) = ("\"" ++ a ++ "\" TEXT") ++ ");"
    simp only [show ("\" TEXT);" : String) = "\" TEXT" ++ ");" from rfl, strAppendAssoc]
  | a :: b :: l, _ => by
    have ih := schemaColsEq (b :: l) (by simp)
    show ("\"" ++ a ++ "\" TEXT, " ++ schemaCols (b :: l) : String) = _
    rw [ih]
    simp only [List.map_cons]
    rw [intercalateConsCons]
    simp only [show ("\" TEXT, " : String) = "\" TEXT" ++ ", " from rfl, strAppendAssoc]

/-- The synthesized schema of a non-empty column list, in closed form. -/
theorem mkSchemaSqlEq (cols : List String) (h : cols ≠ []) :
    mkSchemaSql cols =
      "CREATE TABLE x(" ++
        String.intercalate ", " (cols.map fun c => "\"" ++ c ++ "\" TEXT") ++ ");" := by
  rw [mkSchemaSql, schemaColsEq cols h, ← strAppendAssoc]

/-- Characterization of one splitting step: the first segment is the prefix
before the first separator, and the remainder exists exactly when the
separator occurs. -/
theorem splitNextEq (sep : Char) : ∀ cs : List Char,
    splitNext sep cs =
      (cs.takeWhile (fun c => c != sep),
       if sep ∈ cs then some ((cs.dropWhile (fun c => c != sep)).tail) else none)
  | [] => by simp [splitNext]
  | c :: cs => by
    by_cases hc : c = sep
    · subst hc
      simp [splitNext, List.takeWhile, List.dropWhile]
    · have hne : (c != sep) = true := by simp [hc]
      simp only [splitNext, if_neg hc, splitNextEq sep cs, List.takeWhile, hne,
        List.dropWhile, List.mem_cons]
      by_cases hm : sep ∈ cs <;> simp [hm, Ne.symm hc, hc]

/-- `normalizeNewlines` is the identity on text without a backslash. -/
theorem normalizeNewlinesId : ∀ cs : List Char, '\\' ∉ cs → normalizeNewlines cs = cs
  | [], _ => rfl
  | [_], _ => rfl
  | c1 :: c2 :: rest, h => by
    have h1 : c1 ≠ '\\' := fun e => h (by simp [e])
    have h2 : '\\' ∉ c2 :: rest := fun m => h (List.mem_cons_of_mem _ m)
    simp only [normalizeNewlines]
    rw [if_neg (fun hc => h1 hc.1), normalizeNewlinesId (c2 :: rest) h2]

/-- With quoting disabled, a run of characters free of the delimiter and of
newlines accumulates into the single field of the single record. -/
theorem csvScanNoSpecial (delim : Nat) : ∀ (cs fl : List Char),
    (∀ c ∈ cs, c.toNat ≠ delim ∧ c ≠ '\n') →
    csvScan delim 0 cs false true (String.mk fl) [] [] = [[String.mk (fl ++ cs)]]
  | [], fl, _ => by simp [csvScan]
  | c :: cs, fl, h => by
    have hc := h c (List.mem_cons_self ..)
    have hrest : ∀ x ∈ cs, x.toNat ≠ delim ∧ x ≠ '\n' :=
      fun x hx => h x (List.mem_cons_of_mem _ hx)
    simp only [csvScan]
    rw [if_neg hc.2, if_neg hc.1, if_neg (fun hq => hq.1 rfl),
      show (String.mk fl).push c = String.mk (fl ++ [c]) from rfl,
      csvScanNoSpecial delim cs (fl ++ [c]) hrest, List.append_assoc]
    rfl

/-- A table with quoting disabled whose text is free of the delimiter, of
newlines and of backslashes reads as one record holding the text verbatim. -/
theorem readerRecordsNoQuote (t : SIQUERYTab) (hq : t.quote = 0)
    (hne : t.table ≠ "")
    (hch : ∀ c ∈ t.table.toList, c.toNat ≠ t.delimiter ∧ c ≠ '\n' ∧ c ≠ '\\') :
    t.readerRecords = [[t.table]] := by
  rw [SIQUERYTab.readerRecords, hq,
    normalizeNewlinesId t.table.toList (fun m => ((hch _ m).2).2 rfl)]
  rcases hd : t.table.toList with _ | ⟨c, cs⟩
  · exact absurd (String.ext hd) hne
  · have hc := hch c (by rw [hd]; exact List.mem_cons_self ..)
    have hrest : ∀ x ∈ cs, x.toNat ≠ t.delimiter ∧ x ≠ '\n' := by
      intro x hx
      have := hch x (by rw [hd]; exact List.mem_cons_of_mem _ hx)
      exact ⟨this.1, this.2.1⟩
    rw [parseCSV]
    simp only [csvScan]
    rw [if_neg hc.2.1, if_neg hc.1, if_neg (fun hx => hx.1 rfl),
      show ("" : String).push c = String.mk ([] ++ [c]) from rfl,
      show ([] ++ [c] : List Char) = [c] from rfl,
      csvScanNoSpecial t.delimiter cs [c] hrest]
    have hmk : String.mk ([c] ++ cs) = t.table := String.ext (by simpa using hd.symm)
    rw [hmk]

/-- Binding a success in `Except` applies the continuation. -/
theorem exceptBindOk {α β : Type} (a : α) (k : α → Except Err β) :
    (Except.ok a >>= k) = k a := rfl

/-- Binding a failure in `Except` keeps the failure. -/
theorem exceptBindErr {α β : Type} (e : Err) (k : α → Except Err β) :
    ((Except.error e : Except Err α) >>= k) = .error e := rfl

/-- One argument-loop step never moves `offset_first_row`. -/
theorem applyArgOffset (st st' : ConnectState) (a : String)
    (h : SIQUERYModule.applyArg st a = .ok st') :
    st'.1.offset_first_row = st.1.offset_first_row := by
  unfold SIQUERYModule.applyArg at h
  repeat' split at h
  all_goals first
    | exact Except.noConfusion h
    | (cases h; simp)

/-- The whole argument loop never moves `offset_first_row`. -/
theorem foldlMApplyArgOffset : ∀ (args : List String) (st st' : ConnectState),
    List.foldlM SIQUERYModule.applyArg st args = .ok st' →
    st'.1.offset_first_row = st.1.offset_first_row
  | [], st, st', h => by
    simp only [List.foldlM] at h
    cases h
    rfl
  | a :: as, st, st', h => by
    simp only [List.foldlM] at h
    cases hp : SIQUERYModule.applyArg st a with
    | error e => rw [hp, exceptBindErr] at h; exact absurd h (by simp)
    | ok st1 =>
      rw [hp, exceptBindOk] at h
      rw [foldlMApplyArgOffset as st1 st' h, applyArgOffset st st1 a hp]

/-- Changing only `offset_first_row` does not change the parsed records. -/
theorem readerRecordsSetOffset (t : SIQUERYTab) (x : Nat) :
    SIQUERYTab.readerRecords { t with offset_first_row := x } = t.readerRecords := rfl

/-- The table returned by column determination: the position after the
header when headers are configured, the table unchanged otherwise. -/
theorem determineColsSnd (v : SIQUERYTab) (sch : Option String) (nc : Option Nat) :
    (SIQUERYModule.determineCols v sch nc).2 =
      if v.has_headers then { v with offset_first_row := min 1 v.readerRecords.length }
      else v := by
  by_cases hh : v.has_headers = true
  · simp [SIQUERYModule.determineCols, hh]
  · have hh' : v.has_headers = false := by simpa using hh
    simp only [SIQUERYModule.determineCols, hh', if_false, Bool.false_eq_true, false_or]
    split
    · split <;> rfl
    · split <;> rfl

/-- Column determination with an explicit column count and no schema, when
no header is configured: the names `c0 … c(N-1)`, read from no data. -/
theorem determineColsOfNCol (v : SIQUERYTab) (N : Nat) (hh : v.has_headers = false) :
    SIQUERYModule.determineCols v none (some N) =
      ((List.range N).map fun i => "c" ++ toString i, v) := by
  simp [SIQUERYModule.determineCols, hh]

/-- Column determination with an explicit column count, no schema and a
configured header: the header is read and ignored and the list is empty. -/
theorem determineColsHeaderNCol (v : SIQUERYTab) (N : Nat) (hh : v.has_headers = true) :
    SIQUERYModule.determineCols v none (some N) =
      ([], { v with offset_first_row := min 1 v.readerRecords.length }) := by
  simp [SIQUERYModule.determineCols, hh]

/-- A successful `connect` factors into a successful argument loop and a
successful `connectParsed`. -/
theorem connectOkElim (args : List String) (sql : String) (vt : SIQUERYTab)
    (h : SIQUERYModule.connect args = .ok (sql, vt)) :
    ∃ st : ConnectState,
      List.foldlM SIQUERYModule.applyArg (SIQUERYTab.default, none, none) (args.drop 3)
          = .ok st ∧
      SIQUERYModule.connectParsed st.1 st.2.1 st.2.2 = .ok (sql, vt) := by
  unfold SIQUERYModule.connect at h
  split at h
  · exact absurd h (by simp)
  · cases hf : List.foldlM SIQUERYModule.applyArg (SIQUERYTab.default, none, none)
        (args.drop 3) with
    | error e => rw [hf, exceptBindErr] at h; exact absurd h (by simp)
    | ok st =>
      rw [hf, exceptBindOk] at h
      exact ⟨st, rfl, h⟩

/-- What a successful `connectParsed` guarantees: a non-empty table value,
the returned table is the one from column determination, and without an
explicit schema the columns are non-empty and the schema is synthesized. -/
theorem connectParsedOkElim (v : SIQUERYTab) (sch : Option String) (nc : Option Nat)
    (sql : String) (vt : SIQUERYTab)
    (h : SIQUERYModule.connectParsed v sch nc = .ok (sql, vt)) :
    v.table.isEmpty = false ∧ vt = (SIQUERYModule.determineCols v sch nc).2 ∧
    (sch = none →
      (SIQUERYModule.determineCols v sch nc).1 ≠ [] ∧
      sql = mkSchemaSql (SIQUERYModule.determineCols v sch nc).1) := by
  unfold SIQUERYModule.connectParsed at h
  by_cases hemp : v.table.isEmpty = true
  · rw [if_pos hemp] at h
    exact absurd h (by simp)
  · rw [if_neg hemp] at h
    by_cases hcols : (SIQUERYModule.determineCols v sch nc).1.isEmpty = true ∧ sch.isNone = true
    · rw [if_pos hcols] at h
      exact absurd h (by simp)
    · rw [if_neg hcols] at h
      cases sch with
      | some s =>
        simp only [Except.ok.injEq, Prod.mk.injEq] at h
        exact ⟨by simpa using hemp, h.2.symm, fun hn => absurd hn (by simp)⟩
      | none =>
        simp only [Except.ok.injEq, Prod.mk.injEq] at h
        refine ⟨by simpa using hemp, h.2.symm, fun _ => ⟨?_, h.1.symm⟩⟩
        intro hnil
        exact hcols (by simp [hnil])

/-- Cursors with the same reader and row counter whose reader is not yet
exhausted step to the same cursor. -/
theorem nextCongr (a b : SIQUERYTabCursor) (hr : a.reader = b.reader)
    (hd : a.reader.done = false) (hn : a.row_number = b.row_number) :
    SIQUERYTabCursor.next a = SIQUERYTabCursor.next b := by
  unfold SIQUERYTabCursor.next
  rw [if_neg (by simp [hd]), if_neg (by simp [← hr, hd]), hr, hn]

/-- A step on an exhausted reader only sets the eof flag. -/
theorem nextOfDone (c : SIQUERYTabCursor) (hd : c.reader.done = true) :
    SIQUERYTabCursor.next c = { c with eof := true } := by
  unfold SIQUERYTabCursor.next
  rw [if_pos hd]

/-- A step on a live reader with a record at the current position stores it
and advances the position and the row counter. -/
theorem nextOfNotDoneSome (c : SIQUERYTabCursor) (rec : List String)
    (hd : c.reader.done = false)
    (hg : c.reader.records[c.reader.pos]? = some rec) :
    SIQUERYTabCursor.next c =
      { reader := { records := c.reader.records, pos := c.reader.pos + 1,
                    done := c.reader.done },
        row_number := c.row_number + 1, cols := rec, eof := false } := by
  unfold SIQUERYTabCursor.next Reader.readRecord
  rw [if_neg (by simp [hd])]
  simp [hg]

/-- A step on a live reader past the last record clears the record, sets
both flags, and still advances the row counter. -/
theorem nextOfNotDoneNone (c : SIQUERYTabCursor)
    (hd : c.reader.done = false)
    (hg : c.reader.records[c.reader.pos]? = none) :
    SIQUERYTabCursor.next c =
      { reader := { records := c.reader.records, pos := c.reader.pos, done := true },
        row_number := c.row_number + 1, cols := [], eof := true } := by
  unfold SIQUERYTabCursor.next Reader.readRecord
  rw [if_neg (by simp [hd])]
  simp [hg]

/-- Filtering any cursor whose reader holds the records of the table is the
same as filtering a freshly opened cursor. -/
theorem filterEqOfRecordsEq (t : SIQUERYTab) (c : SIQUERYTabCursor)
    (h : c.reader.records = t.readerRecords) :
    SIQUERYTabCursor.filter t c = SIQUERYTabCursor.filter t (SIQUERYTab.open t) := by
  unfold SIQUERYTabCursor.filter
  apply nextCongr <;> simp [Reader.seek, SIQUERYTab.open, h]

/-- Filtering a freshly opened cursor steps the canonical start cursor. -/
theorem filterOpenEq (t : SIQUERYTab) :
    SIQUERYTabCursor.filter t (SIQUERYTab.open t) =
      SIQUERYTabCursor.next
        { reader := { records := t.readerRecords, pos := t.offset_first_row,
                      done := false },
          row_number := 0, cols := [], eof := false } := by
  simp [SIQUERYTabCursor.filter, SIQUERYTab.open, Reader.seek]

/-- Invariant of the scan loop: after `filter` and `k` steps the reader
still holds the table's records, an eof cursor has an exhausted reader, and
a live cursor is at row `k+1` with the reader at the matching position. -/
theorem iterateFilterInv (t : SIQUERYTab) : ∀ k : Nat,
    (Nat.iterate SIQUERYTabCursor.next k
        (SIQUERYTabCursor.filter t (SIQUERYTab.open t))).reader.records
      = t.readerRecords ∧
    ((Nat.iterate SIQUERYTabCursor.next k
        (SIQUERYTabCursor.filter t (SIQUERYTab.open t))).eof = true →
      (Nat.iterate SIQUERYTabCursor.next k
        (SIQUERYTabCursor.filter t (SIQUERYTab.open t))).reader.done = true) ∧
    ((Nat.iterate SIQUERYTabCursor.next k
        (SIQUERYTabCursor.filter t (SIQUERYTab.open t))).eof = false →
      (Nat.iterate SIQUERYTabCursor.next k
        (SIQUERYTabCursor.filter t (SIQUERYTab.open t))).row_number = k + 1 ∧
      (Nat.iterate SIQUERYTabCursor.next k
        (SIQUERYTabCursor.filter t (SIQUERYTab.open t))).reader.pos
        = t.offset_first_row + k + 1 ∧
      (Nat.iterate SIQUERYTabCursor.next k
        (SIQUERYTabCursor.filter t (SIQUERYTab.open t))).reader.done = false)
  | 0 => by
    rw [show Nat.iterate SIQUERYTabCursor.next 0
        (SIQUERYTabCursor.filter t (SIQUERYTab.open t))
      = SIQUERYTabCursor.filter t (SIQUERYTab.open t) from rfl, filterOpenEq]
    cases hg : t.readerRecords[t.offset_first_row]? with
    | some rec =>
      rw [nextOfNotDoneSome _ rec rfl (by simpa using hg)]
      simp
    | none =>
      rw [nextOfNotDoneNone _ rfl (by simpa using hg)]
      simp
  | k + 1 => by
    have ih := iterateFilterInv t k
    rw [Function.iterate_succ_apply']
    cases he : (Nat.iterate SIQUERYTabCursor.next k
        (SIQUERYTabCursor.filter t (SIQUERYTab.open t))).eof with
    | true =>
      rw [nextOfDone _ (ih.2.1 he)]
      refine ⟨ih.1, fun _ => ih.2.1 he, fun hfalse => ?_⟩
      simp at hfalse
    | false =>
      obtain ⟨hrow, hpos, hdone⟩ := ih.2.2 he
      cases hg : (Nat.iterate SIQUERYTabCursor.next k
          (SIQUERYTabCursor.filter t (SIQUERYTab.open t))).reader.records[(Nat.iterate SIQUERYTabCursor.next k
              (SIQUERYTabCursor.filter t (SIQUERYTab.open t))).reader.pos]? with
      | some rec =>
        rw [nextOfNotDoneSome _ rec hdone hg]
        refine ⟨ih.1, by simp, fun _ => ⟨by simp [hrow], ?_, hdone⟩⟩
        simp [hpos]
        omega
      | none =>
        rw [nextOfNotDoneNone _ hdone hg]
        exact ⟨ih.1, fun _ => rfl, fun hfalse => by simp at hfalse⟩

/-- The record a live cursor holds right after `filter` is exactly the
record stored at the table's first data position. -/
theorem filterColsSome (t : SIQUERYTab) (c : SIQUERYTabCursor)
    (hrec : c.reader.records = t.readerRecords)
    (he : (SIQUERYTabCursor.filter t c).eof = false) :
    t.readerRecords[t.offset_first_row]? = some (SIQUERYTabCursor.filter t c).cols := by
  rw [filterEqOfRecordsEq t c hrec] at he ⊢
  rw [filterOpenEq] at he ⊢
  cases hg : t.readerRecords[t.offset_first_row]? with
  | some rec =>
    rw [nextOfNotDoneSome _ rec rfl (by simpa using hg)]
  | none =>
    rw [nextOfNotDoneNone _ rfl (by simpa using hg)] at he
    simp at he

/-- C1, counterexample: with `columns=2`, no schema and `header=yes`, the
claim says connect succeeds with columns `c0, c1`; it fails instead with
the error `no column specified`, because the header branch reads and
discards the header while the explicit count is never expanded. -/
theorem claim1_counterexample :
    SIQUERYModule.connect ["m", "d", "t", "table=a,b", "columns=2", "header=yes"]
      = .error (.ModuleError "no column specified") := by
  decide

/-- C1, amended: with `columns=N` (`N ≥ 1`), no schema and no header, the
connect tail succeeds, the inferred names are exactly `c0 … c(N-1)`, and no
data is read (the result is the same for every table text); with
`header=yes` and `columns=N` (and no schema) it instead fails with
`no column specified`. -/
theorem claim1_amended :
    ∀ (v : SIQUERYTab) (N : Nat), 1 ≤ N → v.table.isEmpty = false →
      (v.has_headers = false →
        SIQUERYModule.connectParsed v none (some N)
            = .ok (mkSchemaSql ((List.range N).map fun i => "c" ++ toString i), v) ∧
        (SIQUERYModule.determineCols v none (some N)).1
            = (List.range N).map fun i => "c" ++ toString i) ∧
      (v.has_headers = true →
        SIQUERYModule.connectParsed v none (some N)
            = .error (.ModuleError "no column specified")) := by
  intro v N hN htab
  constructor
  · intro hh
    have hd := determineColsOfNCol v N hh
    have hN0 : N ≠ 0 := by omega
    refine ⟨?_, by rw [hd]⟩
    unfold SIQUERYModule.connectParsed
    rw [if_neg (by simp [htab]), hd]
    simp [hN0, List.range_eq_nil]
  · intro hh
    have hd := determineColsHeaderNCol v N hh
    unfold SIQUERYModule.connectParsed
    rw [if_neg (by simp [htab]), hd]
    simp

/-- C1, witness: the amended theorem at `columns=2` over the table text
`zzz`. -/
theorem claim1_witness :
    SIQUERYModule.connectParsed
        { table := "zzz", has_headers := false, delimiter := 44, quote := 34,
          offset_first_row := 0 } none (some 2)
      = .ok (mkSchemaSql ((List.range 2).map fun i => "c" ++ toString i),
          { table := "zzz", has_headers := false, delimiter := 44, quote := 34,
            offset_first_row := 0 }) :=
  ((claim1_amended _ 2 (by decide) (by decide)).1 rfl).1

/-- C2, counterexample: a cursor whose current record has zero fields (here
the cursor that has just discovered end of data) gets an index error from
`column(0)`, not a null value: the bounds check precedes the null branch
and fires for every index once the length is zero. -/
theorem claim2_counterexample :
    SIQUERYTabCursor.column
        (SIQUERYTabCursor.next (SIQUERYTabCursor.filter exTab (SIQUERYTab.open exTab))) 0
      = .error (.ModuleError "column index out of bounds: 0") ∧
    (SIQUERYTabCursor.next (SIQUERYTabCursor.filter exTab (SIQUERYTab.open exTab))).cols
      = [] ∧
    SIQUERYTabCursor.column
        (SIQUERYTabCursor.next (SIQUERYTabCursor.filter exTab (SIQUERYTab.open exTab))) 0
      ≠ .ok .null := by
  decide

/-- C2, amended: `column(index)` fails with an index error exactly when
`index < 0` or `index ≥` the field count — hence for every index when the
record has zero fields — and otherwise yields the field text verbatim; a
null value is never produced (the null branch is unreachable). -/
theorem claim2_amended :
    ∀ (c : SIQUERYTabCursor) (col : Int),
      ((∃ e, SIQUERYTabCursor.column c col = .error e) ↔
        (col < 0 ∨ c.cols.length ≤ col.toNat)) ∧
      SIQUERYTabCursor.column c col ≠ .ok .null ∧
      ((col < 0 ∨ c.cols.length ≤ col.toNat) →
        SIQUERYTabCursor.column c col
          = .error (.ModuleError ("column index out of bounds: " ++ toString col))) ∧
      (¬(col < 0 ∨ c.cols.length ≤ col.toNat) →
        SIQUERYTabCursor.column c col = .ok (.text (c.cols.getD col.toNat ""))) := by
  intro c col
  by_cases hcond : col < 0 ∨ c.cols.length ≤ col.toNat
  · unfold SIQUERYTabCursor.column
    rw [if_pos hcond]
    exact ⟨⟨fun _ => hcond, fun _ => ⟨_, rfl⟩⟩, by simp, fun _ => rfl,
      fun hn => absurd hcond hn⟩
  · unfold SIQUERYTabCursor.column
    rw [if_neg hcond]
    have hlen : col.toNat < c.cols.length := by
      push_neg at hcond
      exact hcond.2
    have hne : c.cols.isEmpty = false := by
      cases hc : c.cols with
      | nil => rw [hc] at hlen; simp at hlen
      | cons a l => simp
    rw [if_neg (by simp [hne])]
    refine ⟨⟨?_, fun hcond2 => absurd hcond2 hcond⟩, by simp, fun h2 => absurd h2 hcond,
      fun _ => rfl⟩
    rintro ⟨e, he⟩
    exact absurd he (by simp)

/-- C2, witness: the amended theorem on the in-range index 0 of a one-row
cursor over the source `a,b`. -/
theorem claim2_witness :
    SIQUERYTabCursor.column (SIQUERYTabCursor.filter exTab2 (SIQUERYTab.open exTab2)) 0
      = .ok (.text "a") := by
  have h := (claim2_amended (SIQUERYTabCursor.filter exTab2 (SIQUERYTab.open exTab2))
    0).2.2.2 (by decide)
  exact h.trans (by decide)

/-- C3: the code, at the failing input: an empty `table=` value is only
logged and skipped, so processing continues and the later malformed
argument `oops` surfaces its own parameter error instead of the immediate
`no table name specified` failure the claim (and the spec) mandates. -/
theorem claim3_code_behavior :
    SIQUERYModule.connect ["m", "d", "t", "table=", "oops"]
      = .error (.ModuleError "illegal argument: 'oops'") := by
  decide

/-- C4, counterexample: over a one-record source, the `next()` call that
first discovers end of data still increments `row_number` (from 1 to 2), so
the claim that such a call never advances `row_number` fails; the rowid
reported after that call is 2 although only one row was yielded. -/
theorem claim4_counterexample :
    (SIQUERYTabCursor.filter exTab (SIQUERYTab.open exTab)).row_number = 1 ∧
    (SIQUERYTabCursor.filter exTab (SIQUERYTab.open exTab)).eof = false ∧
    (SIQUERYTabCursor.next (SIQUERYTabCursor.filter exTab (SIQUERYTab.open exTab))).eof
      = true ∧
    (SIQUERYTabCursor.next
        (SIQUERYTabCursor.filter exTab (SIQUERYTab.open exTab))).row_number = 2 ∧
    SIQUERYTabCursor.rowid
        (SIQUERYTabCursor.next (SIQUERYTabCursor.filter exTab (SIQUERYTab.open exTab)))
      = 2 := by
  decide

/-- C4, amended: `rowid` returns `row_number` as a 64-bit integer; a `next`
on an already-exhausted reader does not advance `row_number`; a `next` on a
live reader always increments it by exactly 1 (also the call that first
discovers end of data, which yields no row); and after `filter` the k-th
live cursor carries `row_number = k + 1`, so the rowids of yielded rows
form the gapless sequence 1, 2, 3, …. -/
theorem claim4_amended :
    (∀ c : SIQUERYTabCursor, SIQUERYTabCursor.rowid c = Int.ofNat c.row_number) ∧
    (∀ c : SIQUERYTabCursor, c.reader.done = true →
      (SIQUERYTabCursor.next c).row_number = c.row_number ∧
      (SIQUERYTabCursor.next c).eof = true) ∧
    (∀ c : SIQUERYTabCursor, c.reader.done = false →
      (SIQUERYTabCursor.next c).row_number = c.row_number + 1) ∧
    (∀ (t : SIQUERYTab) (k : Nat),
      (Nat.iterate SIQUERYTabCursor.next k
        (SIQUERYTabCursor.filter t (SIQUERYTab.open t))).eof = false →
      (Nat.iterate SIQUERYTabCursor.next k
        (SIQUERYTabCursor.filter t (SIQUERYTab.open t))).row_number = k + 1) := by
  refine ⟨fun c => rfl, fun c hd => ?_, fun c hd => ?_,
    fun t k he => ((iterateFilterInv t k).2.2 he).1⟩
  · rw [nextOfDone c hd]
    exact ⟨rfl, rfl⟩
  · cases hg : c.reader.records[c.reader.pos]? with
    | some rec => rw [nextOfNotDoneSome c rec hd hg]
    | none => rw [nextOfNotDoneNone c hd hg]

/-- C4, witness: the amended theorem's scan clause at `k = 0` over the
one-record source `x`. -/
theorem claim4_witness :
    (Nat.iterate SIQUERYTabCursor.next 0
      (SIQUERYTabCursor.filter exTab (SIQUERYTab.open exTab))).row_number = 0 + 1 :=
  claim4_amended.2.2.2 exTab 0 (by decide)

/-- C5: filtering any cursor whose reader holds this table's records — in
particular a cursor after any amount of prior iteration — and then taking
any number of steps gives exactly the same cursor state (same record, same
rowid, same eof) as a freshly opened cursor's drain; and prior iteration
indeed preserves the reader's records. -/
theorem claim5_filter_restart :
    (∀ (t : SIQUERYTab) (c : SIQUERYTabCursor),
      c.reader.records = t.readerRecords →
      ∀ k : Nat,
        Nat.iterate SIQUERYTabCursor.next k (SIQUERYTabCursor.filter t c)
          = Nat.iterate SIQUERYTabCursor.next k
              (SIQUERYTabCursor.filter t (SIQUERYTab.open t))) ∧
    (∀ (t : SIQUERYTab) (k : Nat),
      (Nat.iterate SIQUERYTabCursor.next k
        (SIQUERYTabCursor.filter t (SIQUERYTab.open t))).reader.records
        = t.readerRecords) := by
  exact ⟨fun t c h k => by rw [filterEqOfRecordsEq t c h],
    fun t k => (iterateFilterInv t k).1⟩

/-- C5, witness: re-filtering after one prior step over the one-record
source `x` and draining one step equals the fresh drain at one step. -/
theorem claim5_witness :
    Nat.iterate SIQUERYTabCursor.next 1
        (SIQUERYTabCursor.filter exTab
          (SIQUERYTabCursor.next (SIQUERYTabCursor.filter exTab (SIQUERYTab.open exTab))))
      = Nat.iterate SIQUERYTabCursor.next 1
          (SIQUERYTabCursor.filter exTab (SIQUERYTab.open exTab)) :=
  claim5_filter_restart.1 exTab _ (by decide) 1

/-- C6: for every successful connect, `offset_first_row` is the position
right after the header record when a header is configured (1 on a non-empty
source, in records; never 0 there) and the start of the payload (0)
otherwise; and the record a live cursor holds right after `filter` is
exactly the record stored at that position — with a header, the second
record of the source, never the header. -/
theorem claim6_first_data_position :
    ∀ (args : List String) (sql : String) (vt : SIQUERYTab),
      SIQUERYModule.connect args = .ok (sql, vt) →
      (vt.has_headers = true →
        vt.offset_first_row = min 1 vt.readerRecords.length ∧
        (vt.readerRecords ≠ [] → vt.offset_first_row = 1 ∧ vt.offset_first_row ≠ 0)) ∧
      (vt.has_headers = false → vt.offset_first_row = 0) ∧
      (∀ c : SIQUERYTabCursor, c.reader.records = vt.readerRecords →
        (SIQUERYTabCursor.filter vt c).eof = false →
        vt.readerRecords[vt.offset_first_row]? = some (SIQUERYTabCursor.filter vt c).cols) := by
  intro args sql vt h
  obtain ⟨st, hf, hp⟩ := connectOkElim args sql vt h
  obtain ⟨-, hvt, -⟩ := connectParsedOkElim st.1 st.2.1 st.2.2 sql vt hp
  have hoff0 : st.1.offset_first_row = 0 := by
    have h0 := foldlMApplyArgOffset (args.drop 3) _ st hf
    simpa [SIQUERYTab.default] using h0
  rw [determineColsSnd] at hvt
  by_cases hh : st.1.has_headers = true
  · rw [if_pos hh] at hvt
    subst hvt
    refine ⟨fun _ => ⟨by simp [readerRecordsSetOffset], fun hne => ?_⟩,
      fun hff => ?_, fun c hrec he => filterColsSome _ c hrec he⟩
    · have hlen : 1 ≤ st.1.readerRecords.length := by
        rw [readerRecordsSetOffset] at hne
        cases hl : st.1.readerRecords with
        | nil => exact absurd hl hne
        | cons a l => simp [hl]
      constructor
      · simpa using Nat.min_eq_left hlen
      · show min 1 st.1.readerRecords.length ≠ 0
        rw [Nat.min_eq_left hlen]
        decide
    · simp [hh] at hff
  · rw [if_neg hh] at hvt
    subst hvt
    exact ⟨fun ht => absurd ht hh, fun _ => hoff0,
      fun c hrec he => filterColsSome _ c hrec he⟩

/-- C6, witness: the theorem at a connect with `header=yes` over a
two-record source: the captured first data position is 1, not 0. -/
theorem claim6_witness :
    ({ table := "h1,h2\\nv1,v2", has_headers := true, delimiter := 44, quote := 34,
       offset_first_row := 1 } : SIQUERYTab).offset_first_row = 1 ∧
    ({ table := "h1,h2\\nv1,v2", has_headers := true, delimiter := 44, quote := 34,
       offset_first_row := 1 } : SIQUERYTab).offset_first_row ≠ 0 := by
  have h := claim6_first_data_position ["m", "d", "t", "table=h1,h2\\nv1,v2", "header=yes"]
    "CREATE TABLE x(\"h1\" TEXT, \"h2\" TEXT);"
    { table := "h1,h2\\nv1,v2", has_headers := true, delimiter := 44, quote := 34,
      offset_first_row := 1 } (by decide)
  exact (h.1 rfl).2 (by decide)

/-- C7: every successful connect without an explicit schema returns
exactly the string `CREATE TABLE x(` followed by each derived column name
double-quoted with ` TEXT`, separated by `, `, closed by `);` — no trailing
comma and TEXT affinity on every column. -/
theorem claim7_schema_format :
    ∀ (args : List String) (v : SIQUERYTab) (nc : Option Nat) (sql : String)
      (vt : SIQUERYTab),
      List.foldlM SIQUERYModule.applyArg (SIQUERYTab.default, none, none) (args.drop 3)
          = .ok (v, none, nc) →
      SIQUERYModule.connect args = .ok (sql, vt) →
      sql = "CREATE TABLE x(" ++
        String.intercalate ", "
          (((SIQUERYModule.determineCols v none nc).1).map fun c => "\"" ++ c ++ "\" TEXT")
        ++ ");" := by
  intro args v nc sql vt hf h
  obtain ⟨st, hf2, hp⟩ := connectOkElim args sql vt h
  rw [hf] at hf2
  injection hf2 with hst
  subst hst
  obtain ⟨-, -, hs⟩ := connectParsedOkElim v none nc sql vt hp
  obtain ⟨hne, hsql⟩ := hs rfl
  rw [hsql, mkSchemaSqlEq _ hne]

/-- C7, witness: the theorem at a connect with `columns=3` and no schema;
the returned schema is bit-exact. -/
theorem claim7_witness :
    ("CREATE TABLE x(\"c0\" TEXT, \"c1\" TEXT, \"c2\" TEXT);" : String)
      = "CREATE TABLE x(" ++
        String.intercalate ", "
          (((SIQUERYModule.determineCols
              { table := "1,2,3\\n4,5,6", has_headers := false, delimiter := 44,
                quote := 34, offset_first_row := 0 } none (some 3)).1).map
            fun c => "\"" ++ c ++ "\" TEXT") ++ ");" :=
  claim7_schema_format ["m", "d", "t", "table=1,2,3\\n4,5,6", "columns=3"]
    { table := "1,2,3\\n4,5,6", has_headers := false, delimiter := 44, quote := 34,
      offset_first_row := 0 } (some 3)
    "CREATE TABLE x(\"c0\" TEXT, \"c1\" TEXT, \"c2\" TEXT);"
    { table := "1,2,3\\n4,5,6", has_headers := false, delimiter := 44, quote := 34,
      offset_first_row := 0 } (by decide) (by decide)

/-- C8, counterexample: on the argument `table=a=b` the parser returns the
segment between the first and second `=` (the value `a`), not the full
remainder `a=b` that the claim describes. -/
theorem claim8_counterexample :
    SIQUERYModule.parameter "table=a=b" = .ok ("table", "a") ∧
    SIQUERYModule.parameter "table=a=b" ≠ .ok ("table", "a=b") := by
  decide

/-- C8, amended: parameter parsing fails exactly when the (trimmed)
argument contains no `=`; when an `=` is present it returns the trimmed key
before the first `=` and the dequoted segment between the first and second
`=` (to the end when there is only one). -/
theorem claim8_amended :
    ∀ s : String,
      ((∃ e, SIQUERYModule.parameter s = .error e) ↔ '=' ∉ (rustTrim s).toList) ∧
      ('=' ∈ (rustTrim s).toList →
        SIQUERYModule.parameter s =
          .ok (rustTrim (String.mk ((rustTrim s).toList.takeWhile fun c => c != '=')),
            dequote (String.mk
              ((((rustTrim s).toList.dropWhile fun c => c != '=').tail).takeWhile
                fun c => c != '=')))) := by
  intro s
  by_cases hm : '=' ∈ (rustTrim s).toList
  · have hpar : SIQUERYModule.parameter s
        = .ok (rustTrim (String.mk ((rustTrim s).toList.takeWhile fun c => c != '=')),
            dequote (String.mk
              ((((rustTrim s).toList.dropWhile fun c => c != '=').tail).takeWhile
                fun c => c != '='))) := by
      unfold SIQUERYModule.parameter
      simp only [splitNextEq, hm, if_true]
    refine ⟨⟨fun he => ?_, fun hnot => absurd hm hnot⟩, fun _ => hpar⟩
    obtain ⟨e, he⟩ := he
    exact absurd (hpar.symm.trans he) (by simp)
  · have hpar : SIQUERYModule.parameter s
        = .error (.ModuleError ("illegal argument: '" ++ rustTrim s ++ "'")) := by
      unfold SIQUERYModule.parameter
      simp only [splitNextEq, hm, if_false]
    exact ⟨⟨fun _ => hm, fun _ => ⟨_, hpar⟩⟩, fun hmem => absurd hmem hm⟩

/-- C8, witness: the amended theorem on `columns=3`. -/
theorem claim8_witness :
    SIQUERYModule.parameter "columns=3" = .ok ("columns", "3") := by
  have h := (claim8_amended "columns=3").2 (by decide)
  exact h.trans (by decide)

/-- C9: the literal argument `quote=0` sets the table's quote byte to 0,
and with the quote byte 0 a source free of the delimiter, newlines and
backslashes — in particular one containing the normally-special quote
byte — is yielded as one record holding the text verbatim, the quote byte
unprocessed. -/
theorem claim9_quote_disabled :
    (∀ (v : SIQUERYTab) (sch : Option String) (nc : Option Nat),
      SIQUERYModule.applyArg (v, sch, nc) "quote=0"
        = .ok ({ v with quote := 0 }, sch, nc)) ∧
    (∀ t : SIQUERYTab, t.quote = 0 → t.table ≠ "" →
      (∀ c ∈ t.table.toList, c.toNat ≠ t.delimiter ∧ c ≠ '\n' ∧ c ≠ '\\') →
      t.readerRecords = [[t.table]] ∧
      (t.offset_first_row = 0 →
        (SIQUERYTabCursor.filter t (SIQUERYTab.open t)).cols = [t.table] ∧
        (SIQUERYTabCursor.filter t (SIQUERYTab.open t)).eof = false)) := by
  constructor
  · intro v sch nc
    rfl
  · intro t hq hne hch
    have hrec := readerRecordsNoQuote t hq hne hch
    refine ⟨hrec, fun hoff => ?_⟩
    rw [filterOpenEq, hrec, hoff]
    rw [nextOfNotDoneSome _ [t.table] rfl (by simp)]
    exact ⟨rfl, rfl⟩

/-- C9, witness: the theorem over the source `a"b` with `quote=0`: the
quote byte comes through literally. -/
theorem claim9_witness :
    SIQUERYTab.readerRecords exTabQ = [["a\"b"]] ∧
    (SIQUERYTabCursor.filter exTabQ (SIQUERYTab.open exTabQ)).cols = ["a\"b"] := by
  have h := claim9_quote_disabled.2 exTabQ rfl (by decide) (by decide)
  exact ⟨h.1, (h.2 rfl).1⟩

/-- C10: every raw argument list with fewer than 4 entries makes connect
fail immediately with `no table name specified`, before any argument is
parsed and before any table instance is constructed. -/
theorem claim10_too_few_args :
    ∀ args : List String, args.length < 4 →
      SIQUERYModule.connect args = .error (.ModuleError "no table name specified") := by
  intro args h
  unfold SIQUERYModule.connect
  rw [if_pos h]

/-- C10, witness: the theorem at a three-entry argument list. -/
theorem claim10_witness :
    SIQUERYModule.connect ["m", "d", "t"]
      = .error (.ModuleError "no table name specified") :=
  claim10_too_few_args ["m", "d", "t"] (by decide)

end Rusqlite
